import Mathlib

/-!
Verification of the py2pyd transformation pipeline.

This file gives a shallow embedding of the core of the repository:
the declaration extractor (src/parser/mod.rs), the binding emitter
(src/transformer/mod.rs), the build orchestrators (src/uv_compiler.rs and
src/compiler/mod.rs), and batch-mode file collection, and proves the
stated properties about them.

Conventions of the embedding:
  - Machine integers (the u8 optimization level) are modelled as Nat; the
    source code only ever compares against 0, 1, 2 with a catch-all arm, so
    the Nat model and the u8 model agree on every branch.
  - Filesystem and subprocess effects are passed in explicitly: stateful
    code becomes a pure function of an explicit world record, and the
    filesystem writes and copies a call performs are returned as an
    explicit trace.
  - Fallible code returns Except.
-/

namespace Py2Pyd

/-! ## Data model: top-level Python statements (rustpython ast::StmtKind).

The Rust AST has many statement kinds; the repository inspects exactly five
of them (FunctionDef, ClassDef, Import, ImportFrom, Assign) and ignores the
rest through a wildcard match arm, so all remaining kinds are collapsed
into a single opaque constructor. -/

inductive StmtKind where
  | functionDef (name : String)
  | classDef (name : String)
  | importStmt
  | importFrom
  | assign
  | other
deriving DecidableEq, Repr

/-- A statement node; mirrors rustpython ast::Stmt, which is a located
StmtKind (the location data is never read by the repository). -/
structure Stmt where
  node : StmtKind
deriving DecidableEq, Repr

/-! ## Declaration extractor (src/parser/mod.rs, lines 31-113).

Each extractor loops over the suite and pushes the statements whose kind
matches onto a vector; the wildcard arm does nothing. -/

/-- Embeds parser::extract_functions. -/
def extract_functions (ast : List Stmt) : List Stmt :=
  ast.foldl
    (fun functions stmt =>
      match stmt.node with
      | .functionDef _ => functions ++ [stmt]
      | _ => functions)
    []

/-- Embeds parser::extract_classes. -/
def extract_classes (ast : List Stmt) : List Stmt :=
  ast.foldl
    (fun classes stmt =>
      match stmt.node with
      | .classDef _ => classes ++ [stmt]
      | _ => classes)
    []

/-- Embeds parser::extract_imports. -/
def extract_imports (ast : List Stmt) : List Stmt :=
  ast.foldl
    (fun imports stmt =>
      match stmt.node with
      | .importStmt => imports ++ [stmt]
      | _ => imports)
    []

/-- Embeds parser::extract_from_imports. -/
def extract_from_imports (ast : List Stmt) : List Stmt :=
  ast.foldl
    (fun imports stmt =>
      match stmt.node with
      | .importFrom => imports ++ [stmt]
      | _ => imports)
    []

/-- Embeds parser::extract_module_vars. -/
def extract_module_vars (ast : List Stmt) : List Stmt :=
  ast.foldl
    (fun vars stmt =>
      match stmt.node with
      | .assign => vars ++ [stmt]
      | _ => vars)
    []

/-! Classification predicates used to state properties of the extractors. -/

def isFunctionDef (s : Stmt) : Bool :=
  match s.node with
  | .functionDef _ => true
  | _ => false

def isClassDef (s : Stmt) : Bool :=
  match s.node with
  | .classDef _ => true
  | _ => false

def isImportKind (s : Stmt) : Bool :=
  match s.node with
  | .importStmt => true
  | _ => false

def isImportFromKind (s : Stmt) : Bool :=
  match s.node with
  | .importFrom => true
  | _ => false

def isAssignKind (s : Stmt) : Bool :=
  match s.node with
  | .assign => true
  | _ => false

/-- A push-style fold over statements is a filter, provided the fold body
agrees with an if-then-else on the classification predicate. -/
theorem foldl_push_eq_filter (p : Stmt → Bool) (g : List Stmt → Stmt → List Stmt)
    (hg : ∀ a s, g a s = if p s then a ++ [s] else a) :
    ∀ (l acc : List Stmt), l.foldl g acc = acc ++ l.filter p := by
  intro l
  induction l with
  | nil => intro acc; simp
  | cons s t ih =>
    intro acc
    rw [List.foldl_cons, hg, List.filter_cons]
    by_cases hp : p s = true
    · simp [hp, ih, List.append_assoc]
    · simp [Bool.not_eq_true] at hp
      simp [hp, ih]

theorem extract_functions_eq_filter (ast : List Stmt) :
    extract_functions ast = ast.filter isFunctionDef := by
  have h := foldl_push_eq_filter isFunctionDef
    (fun functions stmt =>
      match stmt.node with
      | .functionDef _ => functions ++ [stmt]
      | _ => functions)
    (by intro a s; obtain ⟨k⟩ := s; cases k <;> rfl) ast []
  simpa [extract_functions] using h

theorem extract_classes_eq_filter (ast : List Stmt) :
    extract_classes ast = ast.filter isClassDef := by
  have h := foldl_push_eq_filter isClassDef
    (fun classes stmt =>
      match stmt.node with
      | .classDef _ => classes ++ [stmt]
      | _ => classes)
    (by intro a s; obtain ⟨k⟩ := s; cases k <;> rfl) ast []
  simpa [extract_classes] using h

theorem extract_imports_eq_filter (ast : List Stmt) :
    extract_imports ast = ast.filter isImportKind := by
  have h := foldl_push_eq_filter isImportKind
    (fun imports stmt =>
      match stmt.node with
      | .importStmt => imports ++ [stmt]
      | _ => imports)
    (by intro a s; obtain ⟨k⟩ := s; cases k <;> rfl) ast []
  simpa [extract_imports] using h

theorem extract_from_imports_eq_filter (ast : List Stmt) :
    extract_from_imports ast = ast.filter isImportFromKind := by
  have h := foldl_push_eq_filter isImportFromKind
    (fun imports stmt =>
      match stmt.node with
      | .importFrom => imports ++ [stmt]
      | _ => imports)
    (by intro a s; obtain ⟨k⟩ := s; cases k <;> rfl) ast []
  simpa [extract_from_imports] using h

theorem extract_module_vars_eq_filter (ast : List Stmt) :
    extract_module_vars ast = ast.filter isAssignKind := by
  have h := foldl_push_eq_filter isAssignKind
    (fun vars stmt =>
      match stmt.node with
      | .assign => vars ++ [stmt]
      | _ => vars)
    (by intro a s; obtain ⟨k⟩ := s; cases k <;> rfl) ast []
  simpa [extract_module_vars] using h

/-- Claim C3: for every top-level statement sequence, extraction appends each
statement to the output sequence matching its tag, ignores statements with
unrecognized tags without error, and the relative order within each output
sequence matches the relative order of the matching statements in the input:
each extractor equals the order-preserving filter by its classification
predicate (hence is a sublist of the input), and a statement whose tag is
unrecognized appears in none of the five outputs. -/
theorem extraction_classifies_and_preserves_order (stmts : List Stmt) :
    (extract_functions stmts = stmts.filter isFunctionDef
      ∧ extract_classes stmts = stmts.filter isClassDef
      ∧ extract_imports stmts = stmts.filter isImportKind
      ∧ extract_from_imports stmts = stmts.filter isImportFromKind
      ∧ extract_module_vars stmts = stmts.filter isAssignKind)
    ∧ (List.Sublist (extract_functions stmts) stmts
      ∧ List.Sublist (extract_classes stmts) stmts
      ∧ List.Sublist (extract_imports stmts) stmts
      ∧ List.Sublist (extract_from_imports stmts) stmts
      ∧ List.Sublist (extract_module_vars stmts) stmts)
    ∧ (∀ s ∈ stmts, s.node = StmtKind.other →
        s ∉ extract_functions stmts ∧ s ∉ extract_classes stmts
        ∧ s ∉ extract_imports stmts ∧ s ∉ extract_from_imports stmts
        ∧ s ∉ extract_module_vars stmts) := by
  refine ⟨⟨extract_functions_eq_filter stmts, extract_classes_eq_filter stmts,
    extract_imports_eq_filter stmts, extract_from_imports_eq_filter stmts,
    extract_module_vars_eq_filter stmts⟩, ?_, ?_⟩
  · rw [extract_functions_eq_filter, extract_classes_eq_filter,
      extract_imports_eq_filter, extract_from_imports_eq_filter,
      extract_module_vars_eq_filter]
    exact ⟨List.filter_sublist stmts, List.filter_sublist stmts,
      List.filter_sublist stmts, List.filter_sublist stmts,
      List.filter_sublist stmts⟩
  · intro s _ hother
    rw [extract_functions_eq_filter, extract_classes_eq_filter,
      extract_imports_eq_filter, extract_from_imports_eq_filter,
      extract_module_vars_eq_filter]
    refine ⟨?_, ?_, ?_, ?_, ?_⟩ <;>
      · intro hmem
        rcases List.mem_filter.mp hmem with ⟨-, hp⟩
        simp [isFunctionDef, isClassDef, isImportKind, isImportFromKind,
          isAssignKind, hother] at hp

/-- Witness for claim C3 at a concrete statement sequence containing one
declaration of each recognized kind plus one unrecognized statement. -/
theorem extraction_classifies_and_preserves_order_witness :
    (extract_functions [⟨.functionDef "add"⟩, ⟨.other⟩,
        ⟨.classDef "Point"⟩, ⟨.importStmt⟩, ⟨.importFrom⟩, ⟨.assign⟩]
      = [⟨.functionDef "add"⟩, ⟨.other⟩, ⟨.classDef "Point"⟩,
          ⟨.importStmt⟩, ⟨.importFrom⟩, ⟨.assign⟩].filter isFunctionDef)
    ∧ (⟨StmtKind.other⟩ : Stmt)
        ∉ extract_functions [⟨.functionDef "add"⟩, ⟨.other⟩,
            ⟨.classDef "Point"⟩, ⟨.importStmt⟩, ⟨.importFrom⟩, ⟨.assign⟩] := by
  have h := extraction_classifies_and_preserves_order
    [⟨.functionDef "add"⟩, ⟨.other⟩, ⟨.classDef "Point"⟩,
      ⟨.importStmt⟩, ⟨.importFrom⟩, ⟨.assign⟩]
  exact ⟨h.1.1, (h.2.2 ⟨.other⟩ (by decide) rfl).1⟩

/-- Claim C4: for every statement sequence, the sum of the lengths of the five
extracted sequences never exceeds the length of the input sequence. -/
theorem extraction_total_length_le (stmts : List Stmt) :
    (extract_functions stmts).length + (extract_classes stmts).length
      + (extract_imports stmts).length + (extract_from_imports stmts).length
      + (extract_module_vars stmts).length ≤ stmts.length := by
  rw [extract_functions_eq_filter, extract_classes_eq_filter,
    extract_imports_eq_filter, extract_from_imports_eq_filter,
    extract_module_vars_eq_filter]
  induction stmts with
  | nil => simp
  | cons s t ih =>
    obtain ⟨k⟩ := s
    cases k <;> simp [List.filter_cons, isFunctionDef, isClassDef,
      isImportKind, isImportFromKind, isAssignKind] <;> omega

/-! ## Binding emitter (src/transformer/mod.rs, lines 17-83).

transform_ast builds the Rust binding source by successive push_str calls:
a fixed prologue, a module registration block (one add_function line per
extracted function, then one add_class line per extracted class), a footer,
then one stub function per extracted function and one stub struct plus
constructor per extracted class.  The per-declaration pieces are factored
out below exactly as the format! strings of the source produce them. -/

/-- The registration line pushed for a function declaration. -/
def funcRegistration (name : String) : String :=
  "    m.add_function(wrap_pyfunction!(" ++ name ++ ", m)?)?;\n"

/-- The registration line pushed for a class declaration. -/
def classRegistration (name : String) : String :=
  "    m.add_class::<" ++ name ++ ">()?;\n"

/-- The stub definition pushed for a function declaration. -/
def functionStub (name : String) : String :=
  "#[pyfunction]\nfn " ++ name ++ "(py: Python) -> PyResult<PyObject> \x7b\n"
    ++ "    // Auto-generated function implementation\n"
    ++ "    Ok(py.None())\n"
    ++ "\x7d\n\n"

/-- The stub struct and constructor pushed for a class declaration. -/
def classStub (name : String) : String :=
  "#[pyclass]\nstruct " ++ name ++ " \x7b\n"
    ++ "    // Auto-generated class implementation\n"
    ++ "\x7d\n\n"
    ++ "#[pymethods]\nimpl " ++ name ++ " \x7b\n"
    ++ "    #[new]\n"
    ++ "    fn new() -> Self \x7b\n"
    ++ "        " ++ name ++ "\x7b \x7d\n"
    ++ "    \x7d\n"
    ++ "\x7d\n\n"

/-- Embeds transformer::transform_ast.  The source receives the optimization
level but only writes it to the debug log; it never influences the generated
code, which is why the parameter is unused here exactly as there.  The Rust
function returns Result but has no error path, so the embedding returns the
string directly. -/
def transform_ast (ast : List Stmt) (module_name : String)
    (_optimize_level : Nat) : String :=
  let code0 := "use pyo3::prelude::*;\n" ++ "use pyo3::wrap_pyfunction;\n\n"
  let code1 := code0 ++ ("#[pymodule]\nfn " ++ module_name
    ++ "(_py: Python, m: &PyModule) -> PyResult<()> \x7b\n")
  let code2 := (extract_functions ast).foldl
    (fun rust_code func =>
      match func.node with
      | .functionDef name => rust_code ++ funcRegistration name
      | _ => rust_code) code1
  let code3 := (extract_classes ast).foldl
    (fun rust_code cls =>
      match cls.node with
      | .classDef name => rust_code ++ classRegistration name
      | _ => rust_code) code2
  let code4 := code3 ++ "    Ok(())\n" ++ "\x7d\n\n"
  let code5 := (extract_functions ast).foldl
    (fun rust_code func =>
      match func.node with
      | .functionDef name => rust_code ++ functionStub name
      | _ => rust_code) code4
  let code6 := (extract_classes ast).foldl
    (fun rust_code cls =>
      match cls.node with
      | .classDef name => rust_code ++ classStub name
      | _ => rust_code) code5
  code6

/-- The declared name of a function statement, if it is one. -/
def stmtFunctionName (s : Stmt) : Option String :=
  match s.node with
  | .functionDef n => some n
  | _ => none

/-- The declared name of a class statement, if it is one. -/
def stmtClassName (s : Stmt) : Option String :=
  match s.node with
  | .classDef n => some n
  | _ => none

/-- The function names of a suite, in extraction order. -/
def functionNames (ast : List Stmt) : List String :=
  (extract_functions ast).filterMap stmtFunctionName

/-- The class names of a suite, in extraction order. -/
def classNames (ast : List Stmt) : List String :=
  (extract_classes ast).filterMap stmtClassName

theorem foldl_str_append (l : List String) :
    ∀ (a b : String),
      l.foldl (fun r s => r ++ s) (a ++ b) = a ++ l.foldl (fun r s => r ++ s) b := by
  induction l with
  | nil => intro a b; simp
  | cons x t ih =>
    intro a b
    rw [List.foldl_cons, List.foldl_cons, String.append_assoc, ih]

theorem join_cons (a : String) (l : List String) :
    String.join (a :: l) = a ++ String.join l := by
  simp only [String.join, List.foldl_cons]
  have h1 : ("" : String) ++ a = a ++ "" := by simp
  rw [h1, foldl_str_append]

/-- A fold that appends one fixed-shape piece per statement carrying a name
and skips the rest produces the concatenation of the pieces over the
extracted names, in order. -/
theorem foldl_piece_eq_join (f : Stmt → Option String) (piece : String → String)
    (g : String → Stmt → String)
    (hg : ∀ a s, g a s = match f s with
      | some n => a ++ piece n
      | none => a) :
    ∀ (l : List Stmt) (c : String),
      l.foldl g c = c ++ String.join ((l.filterMap f).map piece) := by
  intro l
  induction l with
  | nil => intro c; simp [String.join]
  | cons s t ih =>
    intro c
    rw [List.foldl_cons, hg, List.filterMap_cons]
    cases hf : f s with
    | none => rw [ih]
    | some n =>
      rw [List.map_cons, join_cons, ih, String.append_assoc]

theorem filterMap_isSome_length (f : Stmt → Option String) :
    ∀ (l : List Stmt), (∀ s ∈ l, (f s).isSome) →
      (l.filterMap f).length = l.length := by
  intro l
  induction l with
  | nil => intro _; rfl
  | cons s t ih =>
    intro h
    have hs := h s (List.mem_cons_self ..)
    rw [List.filterMap_cons]
    cases hf : f s with
    | none => rw [hf] at hs; simp at hs
    | some n =>
      rw [List.length_cons, List.length_cons,
        ih (fun x hx => h x (List.mem_cons_of_mem _ hx))]

theorem extract_functions_all_functionDef (ast : List Stmt) :
    ∀ s ∈ extract_functions ast, isFunctionDef s = true := by
  intro s hs
  rw [extract_functions_eq_filter] at hs
  exact (List.mem_filter.mp hs).2

theorem extract_classes_all_classDef (ast : List Stmt) :
    ∀ s ∈ extract_classes ast, isClassDef s = true := by
  intro s hs
  rw [extract_classes_eq_filter] at hs
  exact (List.mem_filter.mp hs).2

/-- Claim C1: the emitted native-binding source is exactly the fixed prologue
and module header, then one registration line per extracted function in
extraction order, then one registration line per extracted class in
extraction order, then the module footer, then one stub function definition
per function and one stub struct definition per class, each piece carrying
the name of its source declaration; the number of registration lines and
stubs of each kind equals the number of extracted declarations of that
kind. -/
theorem binding_source_structure (ast : List Stmt) (m : String) (lvl : Nat) :
    transform_ast ast m lvl
      = "use pyo3::prelude::*;\n" ++ "use pyo3::wrap_pyfunction;\n\n"
        ++ ("#[pymodule]\nfn " ++ m
            ++ "(_py: Python, m: &PyModule) -> PyResult<()> \x7b\n")
        ++ String.join ((functionNames ast).map funcRegistration)
        ++ String.join ((classNames ast).map classRegistration)
        ++ ("    Ok(())\n" ++ "\x7d\n\n")
        ++ String.join ((functionNames ast).map functionStub)
        ++ String.join ((classNames ast).map classStub)
    ∧ (functionNames ast).length = (extract_functions ast).length
    ∧ (classNames ast).length = (extract_classes ast).length := by
  refine ⟨?_, ?_, ?_⟩
  · have hfr := foldl_piece_eq_join stmtFunctionName funcRegistration
      (fun rust_code func =>
        match func.node with
        | .functionDef name => rust_code ++ funcRegistration name
        | _ => rust_code)
      (by intro a s; obtain ⟨k⟩ := s; cases k <;> rfl)
    have hcr := foldl_piece_eq_join stmtClassName classRegistration
      (fun rust_code cls =>
        match cls.node with
        | .classDef name => rust_code ++ classRegistration name
        | _ => rust_code)
      (by intro a s; obtain ⟨k⟩ := s; cases k <;> rfl)
    have hfs := foldl_piece_eq_join stmtFunctionName functionStub
      (fun rust_code func =>
        match func.node with
        | .functionDef name => rust_code ++ functionStub name
        | _ => rust_code)
      (by intro a s; obtain ⟨k⟩ := s; cases k <;> rfl)
    have hcs := foldl_piece_eq_join stmtClassName classStub
      (fun rust_code cls =>
        match cls.node with
        | .classDef name => rust_code ++ classStub name
        | _ => rust_code)
      (by intro a s; obtain ⟨k⟩ := s; cases k <;> rfl)
    simp only [transform_ast, hfr, hcr, hfs, hcs]
    simp [functionNames, classNames, String.append_assoc]
  · exact filterMap_isSome_length stmtFunctionName (extract_functions ast)
      (by
        intro s hs
        have h := extract_functions_all_functionDef ast s hs
        obtain ⟨k⟩ := s
        cases k <;> simp_all [isFunctionDef, stmtFunctionName])
  · exact filterMap_isSome_length stmtClassName (extract_classes ast)
      (by
        intro s hs
        have h := extract_classes_all_classDef ast s hs
        obtain ⟨k⟩ := s
        cases k <;> simp_all [isClassDef, stmtClassName])

/-- Claim C8: for every AST and module name, any two optimization levels
produce identical binding source; the level influences only the build
manifest.  The source only logs the level inside transform_ast, so the
generated code does not depend on it. -/
theorem binding_source_independent_of_opt_level (ast : List Stmt) (m : String)
    (l1 l2 : Nat) : transform_ast ast m l1 = transform_ast ast m l2 := rfl

/-! ## Build manifest (src/transformer/mod.rs, lines 86-127).

generate_cargo_toml pushes fixed package, library, maturin and dependency
sections (with the module name spliced in three times), then a profile
section selected by the optimization level: 0, 1 and 2 each emit a single
opt-level directive, and the wildcard arm (every u8 value of 3 or more)
emits opt-level 3 plus lto and codegen-units directives. -/

/-- The manifest text accumulated before the optimization match; mirrors the
push_str sequence of generate_cargo_toml up to the profile header. -/
def cargo_toml_base (module_name : String) : String :=
  "[package]\n"
    ++ ("name = \"" ++ module_name ++ "\"\n")
    ++ "version = \"0.1.0\"\n"
    ++ "edition = \"2021\"\n\n"
    ++ "[lib]\n"
    ++ ("name = \"" ++ module_name ++ "\"\n")
    ++ "crate-type = [\"cdylib\"]\n\n"
    ++ "[package.metadata.maturin]\n"
    ++ ("name = \"" ++ module_name ++ "\"\n")
    ++ "binding = \"pyo3\"\n"
    ++ "strip = true\n\n"
    ++ "[dependencies]\n"
    ++ "pyo3 = \x7b version = \"0.19\", features = [\"extension-module\"] \x7d\n"
    ++ "\n[profile.release]\n"

/-- Embeds transformer::generate_cargo_toml.  The u8 optimization level is
modelled as Nat; the source matches 0, 1, 2 with a wildcard arm, so the two
models branch identically everywhere. -/
def generate_cargo_toml (module_name : String) (optimize_level : Nat) : String :=
  match optimize_level with
  | 0 => cargo_toml_base module_name ++ "opt-level = 0\n"
  | 1 => cargo_toml_base module_name ++ "opt-level = 1\n"
  | 2 => cargo_toml_base module_name ++ "opt-level = 2\n"
  | _ => cargo_toml_base module_name
      ++ ("opt-level = 3\n" ++ "lto = true\n" ++ "codegen-units = 1\n")

/-! Character-pair scanning, used to show the lto directive is absent from
low-optimization manifests for every valid module identifier. -/

def spaceChar : Char := Char.ofNat 32

def underscoreChar : Char := Char.ofNat 95

/-- Whether the two characters a and b occur adjacently, in that order. -/
def hasPair (a b : Char) : List Char → Bool
  | [] => false
  | [_] => false
  | x :: y :: t => (x == a && y == b) || hasPair a b (y :: t)

theorem hasPair_cons_of (a b x : Char) (l : List Char)
    (h : hasPair a b l = true) : hasPair a b (x :: l) = true := by
  cases l with
  | nil => simp [hasPair] at h
  | cons y t => simp [hasPair, h]

theorem hasPair_of_infix (a b : Char) (L : List Char) (h : [a, b] <:+: L) :
    hasPair a b L = true := by
  obtain ⟨s, t, hst⟩ := h
  subst hst
  induction s with
  | nil => simp [hasPair]
  | cons x u ih => exact hasPair_cons_of a b x _ ih

theorem hasPair_false_of_not_mem (a b : Char) (l : List Char) (h : b ∉ l) :
    hasPair a b l = false := by
  induction l with
  | nil => rfl
  | cons x t ih =>
    cases t with
    | nil => rfl
    | cons y u =>
      have h2 : b ∉ y :: u := fun hm => h (List.mem_cons_of_mem _ hm)
      have h3 := ih h2
      have hy : (y == b) = false := by
        cases hyb : (y == b) with
        | false => rfl
        | true =>
          rw [beq_iff_eq] at hyb
          subst hyb
          exact absurd (List.mem_cons_self _ _) h2
      simp [hasPair, h3, hy]

theorem head?_ne_of_not_mem (b : Char) (l : List Char) (h : b ∉ l) :
    l.head? ≠ some b := by
  intro hh
  cases l with
  | nil => simp at hh
  | cons x t =>
    simp at hh
    exact h (hh ▸ List.mem_cons_self x t)

theorem head?_append_ne (b : Char) (L M : List Char)
    (h1 : L.head? ≠ some b) (h2 : M.head? ≠ some b) :
    (L ++ M).head? ≠ some b := by
  cases L with
  | nil => simpa using h2
  | cons x t => simpa using h1

theorem hasPair_append_false (a b : Char) (L M : List Char)
    (h1 : hasPair a b L = false) (h2 : hasPair a b M = false)
    (h3 : M.head? ≠ some b) : hasPair a b (L ++ M) = false := by
  induction L with
  | nil => simpa
  | cons x t ih =>
    cases t with
    | nil =>
      cases M with
      | nil => rfl
      | cons y u =>
        have hy : (y == b) = false := by
          cases hyb : (y == b) with
          | false => rfl
          | true =>
            rw [beq_iff_eq] at hyb
            subst hyb
            exact absurd rfl h3
        simp only [List.cons_append, List.nil_append]
        simp [hasPair, hy, h2]
    | cons y u =>
      have h1a : (x == a && y == b) = false ∧ hasPair a b (y :: u) = false := by
        simpa [hasPair] using h1
      have h4 := ih h1a.2
      simp only [List.cons_append] at h4 ⊢
      simp [hasPair, h1a.1]
      simpa using h4

/-- A list that neither contains the adjacent pair a b nor starts with b. -/
def noPairAnchored (a b : Char) (l : List Char) : Prop :=
  hasPair a b l = false ∧ l.head? ≠ some b

instance (a b : Char) (l : List Char) : Decidable (noPairAnchored a b l) := by
  unfold noPairAnchored
  infer_instance

theorem noPairAnchored_append {a b : Char} {L M : List Char}
    (hL : noPairAnchored a b L) (hM : noPairAnchored a b M) :
    noPairAnchored a b (L ++ M) :=
  ⟨hasPair_append_false a b L M hL.1 hM.1 hM.2,
    head?_append_ne b L M hL.2 hM.2⟩

/-- No lowercase o is followed by a space anywhere in the base manifest
followed by a tail that also lacks the pair, whenever the module name
contains no space. -/
theorem base_no_o_space (m : String) (hm : spaceChar ∉ m.data) (T : List Char)
    (hT : hasPair 'o' spaceChar T = false) (hTh : T.head? ≠ some spaceChar) :
    hasPair 'o' spaceChar ((cargo_toml_base m).data ++ T) = false := by
  simp only [cargo_toml_base, String.data_append, List.append_assoc]
  have hmA : noPairAnchored 'o' spaceChar m.data :=
    ⟨hasPair_false_of_not_mem 'o' spaceChar m.data hm,
      head?_ne_of_not_mem spaceChar m.data hm⟩
  exact (noPairAnchored_append (by decide)
    (noPairAnchored_append (by decide)
    (noPairAnchored_append hmA
    (noPairAnchored_append (by decide)
    (noPairAnchored_append (by decide)
    (noPairAnchored_append (by decide)
    (noPairAnchored_append (by decide)
    (noPairAnchored_append (by decide)
    (noPairAnchored_append hmA
    (noPairAnchored_append (by decide)
    (noPairAnchored_append (by decide)
    (noPairAnchored_append (by decide)
    (noPairAnchored_append (by decide)
    (noPairAnchored_append hmA
    (noPairAnchored_append (by decide)
    (noPairAnchored_append (by decide)
    (noPairAnchored_append (by decide)
    (noPairAnchored_append (by decide)
    (noPairAnchored_append (by decide)
    (noPairAnchored_append (by decide) ⟨hT, hTh⟩)))))))))))))))))))).1

theorem lto_infix_of_ge3 (m : String) (lvl : Nat) (h : 3 ≤ lvl) :
    "lto = true".data <:+: (generate_cargo_toml m lvl).data := by
  obtain ⟨k, rfl⟩ : ∃ k, lvl = k + 3 := ⟨lvl - 3, by omega⟩
  show "lto = true".data <:+:
    (cargo_toml_base m
      ++ ("opt-level = 3\n" ++ "lto = true\n" ++ "codegen-units = 1\n")).data
  rw [String.data_append]
  have htail : "lto = true".data <:+:
      ("opt-level = 3\n" ++ "lto = true\n" ++ "codegen-units = 1\n").data := by
    decide
  exact htail.trans ⟨(cargo_toml_base m).data, [], by simp⟩

theorem no_lto_of_lt3 (m : String) (lvl : Nat)
    (hm : spaceChar ∉ m.data) (h : lvl < 3) :
    ¬ ("lto = true".data <:+: (generate_cargo_toml m lvl).data) := by
  intro hinf
  have hp := hasPair_of_infix 'o' spaceChar _
    ((show ['o', spaceChar] <:+: "lto = true".data by decide).trans hinf)
  have hf : hasPair 'o' spaceChar ((generate_cargo_toml m lvl).data) = false := by
    interval_cases lvl
    · show hasPair 'o' spaceChar
        ((cargo_toml_base m ++ "opt-level = 0\n").data) = false
      rw [String.data_append]
      exact base_no_o_space m hm _ (by decide) (by decide)
    · show hasPair 'o' spaceChar
        ((cargo_toml_base m ++ "opt-level = 1\n").data) = false
      rw [String.data_append]
      exact base_no_o_space m hm _ (by decide) (by decide)
    · show hasPair 'o' spaceChar
        ((cargo_toml_base m ++ "opt-level = 2\n").data) = false
      rw [String.data_append]
      exact base_no_o_space m hm _ (by decide) (by decide)
  rw [hf] at hp
  exact Bool.false_ne_true hp

/-- Claim C2: the manifest mapping is total over all levels (the embedding is
a total function); levels 0, 1 and 2 each emit a single opt-level directive
with that number; every level of at least 3 emits the opt-level 3 directive
plus the link-time-optimization and single-codegen-unit directives,
producing output identical to level exactly 3; and the manifest contains
the lto directive if and only if the level is at least 3 (the reverse
direction requiring only that the module name is a valid identifier). -/
theorem optimization_profile_total (m : String) (lvl : Nat)
    (hm : ∀ c ∈ m.data, c.isAlphanum = true ∨ c = underscoreChar) :
    (lvl = 0 → generate_cargo_toml m lvl = cargo_toml_base m ++ "opt-level = 0\n")
    ∧ (lvl = 1 → generate_cargo_toml m lvl = cargo_toml_base m ++ "opt-level = 1\n")
    ∧ (lvl = 2 → generate_cargo_toml m lvl = cargo_toml_base m ++ "opt-level = 2\n")
    ∧ (3 ≤ lvl →
        generate_cargo_toml m lvl
            = cargo_toml_base m
              ++ ("opt-level = 3\n" ++ "lto = true\n" ++ "codegen-units = 1\n")
          ∧ generate_cargo_toml m lvl = generate_cargo_toml m 3)
    ∧ ("lto = true".data <:+: (generate_cargo_toml m lvl).data ↔ 3 ≤ lvl) := by
  have hspace : spaceChar ∉ m.data := by
    intro hsp
    rcases hm spaceChar hsp with h | h
    · exact absurd h (by decide)
    · exact absurd h (by decide)
  refine ⟨fun h => by subst h; rfl, fun h => by subst h; rfl,
    fun h => by subst h; rfl, fun h => ?_, ?_⟩
  · obtain ⟨k, rfl⟩ : ∃ k, lvl = k + 3 := ⟨lvl - 3, by omega⟩
    exact ⟨rfl, rfl⟩
  · constructor
    · intro hinf
      by_contra hlt
      push_neg at hlt
      exact no_lto_of_lt3 m lvl hspace hlt hinf
    · exact lto_infix_of_ge3 m lvl

/-- Witness for claim C2 at module name mathmod and level 5: the manifest
collapses to the level-3 manifest and contains the lto directive. -/
theorem optimization_profile_total_witness :
    (generate_cargo_toml "mathmod" 5 = generate_cargo_toml "mathmod" 3)
    ∧ ("lto = true".data <:+: (generate_cargo_toml "mathmod" 5).data ↔ 3 ≤ 5) :=
  ⟨((optimization_profile_total "mathmod" 5 (by decide)).2.2.2.1 (by omega)).2,
    (optimization_profile_total "mathmod" 5 (by decide)).2.2.2.2⟩

/-! ## Single-file build orchestrator (src/uv_compiler.rs, lines 45-168).

compile_file is stateful and invokes subprocesses, so the embedding passes
the world in explicitly and returns the filesystem effects as a trace:
  - readResult is the outcome of reading the input file,
  - envResult is the outcome of creating the uv virtual environment,
  - buildOk is whether the setup.py build_ext subprocess exited
    successfully; buildStdout and buildStderr are the console output of
    that subprocess, which the source launches with .status(), so the
    output is inherited by the console and never captured by the program,
  - artifactFound is the first file with the platform extension found by
    the walkdir scan of the scratch directory,
  - the trace records the files written, whether the build subprocess was
    launched, and the artifact copies performed (directory creation is an
    abstracted filesystem capability). -/

/-- An operating-system string, which may not be valid UTF-8; mirrors
std::ffi::OsStr as far as the repository observes it. -/
inductive OsStr where
  | utf8 (s : String)
  | nonUtf8
deriving DecidableEq, Repr

/-- Mirrors OsStr::to_str: some for valid UTF-8, none otherwise. -/
def OsStr.to_str : OsStr → Option String
  | .utf8 s => some s
  | .nonUtf8 => none

/-- An input path as the orchestrator observes it: Path::file_stem yields
an optional OS string. -/
structure InputPath where
  file_stem : Option OsStr
deriving DecidableEq, Repr

structure CompileWorld where
  tempDir : String
  readResult : Except String String
  envResult : Except String String
  buildOk : Bool
  buildStdout : String
  buildStderr : String
  artifactFound : Option String

structure CompileTrace where
  writes : List (String × String)
  buildRan : Bool
  copies : List (String × String)
deriving DecidableEq, Repr

/-- Embeds uv_compiler::generate_setup_py; the source ignores the source
code and the config, using only the module name. -/
def generate_setup_py (module_name : String) (_source_code : String) : String :=
  "from setuptools import setup, Extension\n"
    ++ "from setuptools.command.build_ext import build_ext\n"
    ++ "import sys\n\n"
    ++ "class ABI3BuildExt(build_ext):\n"
    ++ "    def build_extension(self, ext):\n"
    ++ "        ext.py_limited_api = True\n"
    ++ "        super().build_extension(ext)\n\n"
    ++ "setup(\n"
    ++ ("    name=\x27" ++ module_name ++ "\x27,\n")
    ++ "    version=\x270.1\x27,\n"
    ++ "    ext_modules=[Extension(\n"
    ++ ("        \x27" ++ module_name ++ "\x27,\n")
    ++ ("        sources=[\x27" ++ module_name ++ ".py\x27],\n")
    ++ "        py_limited_api=True,\n"
    ++ "        define_macros=[(\x27Py_LIMITED_API\x27, \x270x03070000\x27)],\n"
    ++ "    )],\n"
    ++ "    cmdclass=\x7b\x27build_ext\x27: ABI3BuildExt\x7d,\n"
    ++ ")\n"

/-- Embeds uv_compiler::compile_file.  Mirrors the control flow: create the
scratch directory, derive the module name from the input file stem (erroring
out before anything else when there is no stem or it is not UTF-8), read
the source, write setup.py and the copied source into the scratch
directory, create the uv environment, run the build subprocess, and on
success locate and copy the artifact. -/
def compile_file (input : InputPath) (output_path : String) (w : CompileWorld) :
    Except String Unit × CompileTrace :=
  match input.file_stem.bind OsStr.to_str with
  | none => (Except.error "Invalid input file name", ⟨[], false, []⟩)
  | some module_name =>
    match w.readResult with
    | Except.error e => (Except.error e, ⟨[], false, []⟩)
    | Except.ok source_code =>
      let writes1 :=
        [(w.tempDir ++ "/setup.py", generate_setup_py module_name source_code),
          (w.tempDir ++ "/" ++ module_name ++ ".py", source_code)]
      match w.envResult with
      | Except.error e => (Except.error e, ⟨writes1, false, []⟩)
      | Except.ok _python =>
        if w.buildOk = false then
          (Except.error "Failed to build extension module", ⟨writes1, true, []⟩)
        else
          match w.artifactFound with
          | none =>
            (Except.error "Failed to find compiled extension module",
              ⟨writes1, true, []⟩)
          | some artifact =>
            (Except.ok (), ⟨writes1, true, [(artifact, output_path)]⟩)

/-- Counterexample to claim C6 as stated: with the build subprocess failing
and printing a distinctive message to stderr, the orchestrator returns the
fixed error message, and no error message carrying that stderr text
verbatim exists; the source launches the subprocess with .status(), which
inherits rather than captures its output. -/
theorem toolchain_failure_counterexample :
    (compile_file ⟨some (OsStr.utf8 "gizmo")⟩ "out/gizmo.pyd"
        ⟨"TMP", Except.ok "x = 1\n", Except.ok "python", false, "",
          "xyzzy exploded", none⟩).1
      = Except.error "Failed to build extension module"
    ∧ ¬ (∃ msg,
        (compile_file ⟨some (OsStr.utf8 "gizmo")⟩ "out/gizmo.pyd"
            ⟨"TMP", Except.ok "x = 1\n", Except.ok "python", false, "",
              "xyzzy exploded", none⟩).1 = Except.error msg
        ∧ "xyzzy exploded".data <:+: msg.data) := by
  constructor
  · rfl
  · rintro ⟨msg, h1, h2⟩
    have hmsg : msg = "Failed to build extension module" := by
      have h1b : Except.error (ε := String) (α := Unit) msg
          = Except.error "Failed to build extension module" := h1.symm.trans rfl
      simpa using h1b
    subst hmsg
    exact absurd h2 (by decide)

/-- Claim C6 as amended: if the build subprocess exits with failure, the
orchestrator fails with the fixed toolchain-failure message (the subprocess
output is inherited by the console, never captured into the error), copies
no artifact, writes nothing at the destination path, and its outcome is
independent of whatever the subprocess printed. -/
theorem toolchain_failure_behavior (input : InputPath) (output_path : String)
    (w : CompileWorld) (name src py : String)
    (hstem : input.file_stem.bind OsStr.to_str = some name)
    (hread : w.readResult = Except.ok src)
    (henv : w.envResult = Except.ok py)
    (hbuild : w.buildOk = false)
    (hout1 : output_path ≠ w.tempDir ++ "/setup.py")
    (hout2 : output_path ≠ w.tempDir ++ "/" ++ name ++ ".py") :
    (compile_file input output_path w).1
        = Except.error "Failed to build extension module"
    ∧ (compile_file input output_path w).2.copies = []
    ∧ output_path ∉ ((compile_file input output_path w).2.writes.map Prod.fst)
    ∧ (∀ so se : String,
        compile_file input output_path
            { w with buildStdout := so, buildStderr := se }
          = compile_file input output_path w) := by
  refine ⟨?_, ?_, ?_, ?_⟩
  · simp [compile_file, hstem, hread, henv, hbuild]
  · simp [compile_file, hstem, hread, henv, hbuild]
  · simp [compile_file, hstem, hread, henv, hbuild]
    exact ⟨hout1, hout2⟩
  · intro so se
    simp [compile_file, hstem, hread, henv, hbuild]

/-- Witness for the amended claim C6 at a concrete failing build. -/
theorem toolchain_failure_behavior_witness :
    (compile_file ⟨some (OsStr.utf8 "demo")⟩ "dest/demo.pyd"
        ⟨"T", Except.ok "y = 2\n", Except.ok "py", false, "", "", none⟩).1
      = Except.error "Failed to build extension module" :=
  (toolchain_failure_behavior ⟨some (OsStr.utf8 "demo")⟩ "dest/demo.pyd"
    ⟨"T", Except.ok "y = 2\n", Except.ok "py", false, "", "", none⟩
    "demo" "y = 2\n" "py" rfl rfl rfl rfl (by decide) (by decide)).1

/-- Claim C10: the module name is exactly the input file stem, verbatim and
unsanitized (it is spliced untouched into the scratch source file name and
the generated setup.py), and when the path has no stem or the stem is not
valid UTF-8 the orchestrator errors out without running any build and
without writing or copying anything. -/
theorem module_name_from_stem (input : InputPath) (output_path : String)
    (w : CompileWorld) :
    (input.file_stem.bind OsStr.to_str = none →
        (compile_file input output_path w).1
            = Except.error "Invalid input file name"
        ∧ (compile_file input output_path w).2.buildRan = false
        ∧ (compile_file input output_path w).2.writes = []
        ∧ (compile_file input output_path w).2.copies = [])
    ∧ (∀ s src, input.file_stem = some (OsStr.utf8 s) →
        w.readResult = Except.ok src →
        (w.tempDir ++ "/setup.py", generate_setup_py s src)
            ∈ (compile_file input output_path w).2.writes
        ∧ (w.tempDir ++ "/" ++ s ++ ".py", src)
            ∈ (compile_file input output_path w).2.writes) := by
  constructor
  · intro h
    simp [compile_file, h]
  · intro s src hstem hread
    have hb : input.file_stem.bind OsStr.to_str = some s := by
      simp [hstem, OsStr.to_str]
    simp only [compile_file, hb, hread]
    cases w.envResult with
    | error e => simp
    | ok p =>
      cases hw : w.buildOk with
      | false => simp
      | true =>
        cases w.artifactFound with
        | none => simp
        | some a => simp

/-- Witness for claim C10: a stem that is not valid UTF-8 produces the
invalid-file-name error with no build attempted, and a normal stem is used
verbatim in the scratch writes. -/
theorem module_name_from_stem_witness :
    ((compile_file ⟨some OsStr.nonUtf8⟩ "o.pyd"
          ⟨"T2", Except.ok "z = 3", Except.ok "p", true, "", "", none⟩).1
        = Except.error "Invalid input file name"
      ∧ (compile_file ⟨some OsStr.nonUtf8⟩ "o.pyd"
          ⟨"T2", Except.ok "z = 3", Except.ok "p", true, "", "", none⟩).2.buildRan
        = false)
    ∧ ("T2" ++ "/" ++ "my-mod!" ++ ".py", "z = 3")
        ∈ (compile_file ⟨some (OsStr.utf8 "my-mod!")⟩ "o.pyd"
            ⟨"T2", Except.ok "z = 3", Except.ok "p", true, "", "", none⟩).2.writes := by
  refine ⟨?_, ?_⟩
  · have h := (module_name_from_stem ⟨some OsStr.nonUtf8⟩ "o.pyd"
      ⟨"T2", Except.ok "z = 3", Except.ok "p", true, "", "", none⟩).1 rfl
    exact ⟨h.1, h.2.1⟩
  · exact ((module_name_from_stem ⟨some (OsStr.utf8 "my-mod!")⟩ "o.pyd"
      ⟨"T2", Except.ok "z = 3", Except.ok "p", true, "", "", none⟩).2
      "my-mod!" "z = 3" rfl rfl).2

/-! ## Batch mode (src/uv_compiler.rs, lines 171-247; src/compiler/mod.rs,
lines 54-124 is structurally identical).

The batch loop computes each output path (string glue, abstracted), creates
its parent directory (a filesystem capability whose failure propagates with
the ? operator), and then matches on the per-file compile outcome: Ok bumps
the success counter, Err is logged and bumps the failure counter.  The
source logs the final counts and returns Ok(()); the embedding returns the
counts so the reported tally is observable. -/

def batch_loop (mkdirOutcome compileOutcome : String → Except String Unit) :
    List String → Nat × Nat → Except String (Nat × Nat)
  | [], counts => Except.ok counts
  | f :: rest, counts =>
    match mkdirOutcome f with
    | Except.error e => Except.error e
    | Except.ok _ =>
      match compileOutcome f with
      | Except.ok _ =>
        batch_loop mkdirOutcome compileOutcome rest (counts.1 + 1, counts.2)
      | Except.error _ =>
        batch_loop mkdirOutcome compileOutcome rest (counts.1, counts.2 + 1)

/-- Embeds batch_compile: create the output directory, then run the loop
over the collected files starting from zero counters. -/
def batch_compile (outputDirCreate : Except String Unit) (files : List String)
    (mkdirOutcome compileOutcome : String → Except String Unit) :
    Except String (Nat × Nat) :=
  match outputDirCreate with
  | Except.error e => Except.error e
  | Except.ok _ => batch_loop mkdirOutcome compileOutcome files (0, 0)

theorem filter_bool_partition_length {α : Type} (p : α → Bool) (l : List α) :
    (l.filter p).length + (l.filter (fun x => !(p x))).length = l.length := by
  induction l with
  | nil => rfl
  | cons x t ih =>
    cases hx : p x <;> simp [List.filter_cons, hx] <;> omega

theorem batch_loop_counts (mk cp : String → Except String Unit) :
    ∀ (l : List String), (∀ f ∈ l, (mk f).toBool = true) →
      ∀ (a b : Nat),
        batch_loop mk cp l (a, b)
          = Except.ok (a + (l.filter (fun f => (cp f).toBool)).length,
              b + (l.filter (fun f => !(cp f).toBool)).length) := by
  intro l
  induction l with
  | nil => intro _ a b; simp [batch_loop]
  | cons f t ih =>
    intro h a b
    have hf := h f (List.mem_cons_self ..)
    have ht := fun x hx => h x (List.mem_cons_of_mem _ hx)
    cases hmk : mk f with
    | error e => rw [hmk] at hf; simp [Except.toBool, Except.isOk] at hf
    | ok u =>
      cases hcp : cp f with
      | ok v =>
        simp only [batch_loop, hmk, hcp]
        rw [ih ht]
        simp [List.filter_cons, hcp, Except.toBool, Except.isOk, Prod.ext_iff]
        omega
      | error e =>
        simp only [batch_loop, hmk, hcp]
        rw [ih ht]
        simp [List.filter_cons, hcp, Except.toBool, Except.isOk, Prod.ext_iff]
        omega

/-- Claim C5: provided the output directory and the per-file parent
directories are creatable, a failure of one compilation unit never aborts
the batch: the loop traverses every collected file, counts each success and
each failure, and the batch operation returns success carrying the final
tally, whose two counts sum to the number of files processed. -/
theorem batch_isolates_failures (outDir : Except String Unit)
    (files : List String) (mk cp : String → Except String Unit)
    (houtDir : outDir = Except.ok ())
    (hmk : ∀ f ∈ files, (mk f).toBool = true) :
    batch_compile outDir files mk cp
      = Except.ok ((files.filter (fun f => (cp f).toBool)).length,
          (files.filter (fun f => !(cp f).toBool)).length)
    ∧ (files.filter (fun f => (cp f).toBool)).length
        + (files.filter (fun f => !(cp f).toBool)).length = files.length := by
  constructor
  · subst houtDir
    show batch_loop mk cp files (0, 0) = _
    rw [batch_loop_counts mk cp files hmk 0 0]
    simp
  · exact filter_bool_partition_length _ files

/-- Witness for claim C5, the spec scenario: three files, the second one
failing, yields success with a tally of two successes and one failure. -/
theorem batch_isolates_failures_witness :
    batch_compile (Except.ok ()) ["a.py", "b.py", "c.py"]
        (fun _ => Except.ok ())
        (fun f => if f = "b.py" then Except.error "parse error" else Except.ok ())
      = Except.ok (2, 1) := by
  have h := (batch_isolates_failures (Except.ok ()) ["a.py", "b.py", "c.py"]
    (fun _ => Except.ok ())
    (fun f => if f = "b.py" then Except.error "parse error" else Except.ok ())
    rfl (by decide)).1
  simpa using h

/-! ## Batch-mode file collection (src/uv_compiler.rs, lines 250-296;
src/compiler/mod.rs, lines 127-171 is identical).

The directory walk, the non-recursive listing and the glob expansion are
external collaborators; the embedding receives their yielded entries (for
the fallible listing and glob, an Except covering both the initial call and
the per-entry failures that the source propagates with ?).  The filter
applied to every candidate is exactly that of the source:
path.is_file() && path.extension() == Some("py"). -/

structure DirEntry where
  path : String
  isFile : Bool
deriving DecidableEq, Repr

def slashChar : Char := Char.ofNat 47

def dotChar : Char := Char.ofNat 46

/-- The part of the list after the last occurrence of sep, if any. -/
def afterLast (sep : Char) : List Char → Option (List Char)
  | [] => none
  | c :: t =>
    match afterLast sep t with
    | some r => some r
    | none => if c == sep then some t else none

/-- The final path component; models Path::file_name on plain UTF-8 paths. -/
def fileNameOf (p : String) : String :=
  match afterLast slashChar p.data with
  | some r => String.mk r
  | none => p

/-- Models Path::extension on plain UTF-8 paths: the portion of the file
name after the last dot; none when there is no dot, or when the only dot is
the leading one. -/
def extOf (p : String) : Option String :=
  match (fileNameOf p).data with
  | [] => none
  | c :: t =>
    if c == dotChar then (afterLast dotChar t).map String.mk
    else (afterLast dotChar (c :: t)).map String.mk

/-- The per-candidate filter of collect_python_files. -/
def isPyFile (e : DirEntry) : Bool :=
  e.isFile && (extOf e.path == some "py")

structure CollectWorld where
  isDirPattern : Bool
  walkEntries : List DirEntry
  readDirEntries : Except String (List DirEntry)
  globEntries : Except String (List DirEntry)

/-- Embeds collect_python_files: directory patterns are walked recursively
or listed non-recursively according to the flag, other patterns are
expanded as globs, and each branch keeps only existing regular files with
extension py. -/
def collect_python_files (w : CollectWorld) (recursive : Bool) :
    Except String (List String) :=
  if w.isDirPattern then
    if recursive then
      Except.ok ((w.walkEntries.filter isPyFile).map DirEntry.path)
    else
      match w.readDirEntries with
      | Except.error e => Except.error e
      | Except.ok es => Except.ok ((es.filter isPyFile).map DirEntry.path)
  else
    match w.globEntries with
    | Except.error e => Except.error e
    | Except.ok es => Except.ok ((es.filter isPyFile).map DirEntry.path)

/-- Claim C9: whatever the pattern kind and recursion flag, every path the
collection returns comes from an entry of the walked, listed or
glob-expanded tree that is an existing regular file whose extension is
exactly py; hence no file with any other extension reaches the per-file
compilation step. -/
theorem collect_only_existing_python_files (w : CollectWorld) (recursive : Bool)
    (ps : List String) (h : collect_python_files w recursive = Except.ok ps) :
    ∀ p ∈ ps, ∃ e : DirEntry,
      e.path = p ∧ e.isFile = true ∧ extOf p = some "py"
      ∧ (e ∈ w.walkEntries
          ∨ (∃ es, w.readDirEntries = Except.ok es ∧ e ∈ es)
          ∨ (∃ es, w.globEntries = Except.ok es ∧ e ∈ es)) := by
  intro p hp
  have main : ∀ (es : List DirEntry),
      p ∈ (es.filter isPyFile).map DirEntry.path →
      ∃ e : DirEntry, e.path = p ∧ e.isFile = true ∧ extOf p = some "py" ∧ e ∈ es := by
    intro es hmem
    obtain ⟨e, he, hpath⟩ := List.mem_map.mp hmem
    obtain ⟨hin, hok⟩ := List.mem_filter.mp he
    have hok2 : e.isFile = true ∧ (extOf e.path == some "py") = true := by
      simpa [isPyFile] using hok
    refine ⟨e, hpath, hok2.1, ?_, hin⟩
    rw [← hpath]
    exact (beq_iff_eq ..).mp hok2.2
  unfold collect_python_files at h
  by_cases hd : w.isDirPattern = true
  · rw [if_pos hd] at h
    cases recursive with
    | true =>
      rw [if_pos rfl] at h
      obtain ⟨e, h1, h2, h3, h4⟩ := main w.walkEntries (by
        injection h with h
        rw [h]; exact hp)
      exact ⟨e, h1, h2, h3, Or.inl h4⟩
    | false =>
      rw [if_neg (by simp)] at h
      cases hrd : w.readDirEntries with
      | error e => rw [hrd] at h; exact absurd h (by simp)
      | ok es =>
        rw [hrd] at h
        obtain ⟨e, h1, h2, h3, h4⟩ := main es (by
          injection h with h
          rw [h]; exact hp)
        exact ⟨e, h1, h2, h3, Or.inr (Or.inl ⟨es, rfl, h4⟩)⟩
  · rw [if_neg hd] at h
    cases hg : w.globEntries with
    | error e => rw [hg] at h; exact absurd h (by simp)
    | ok es =>
      rw [hg] at h
      obtain ⟨e, h1, h2, h3, h4⟩ := main es (by
        injection h with h
        rw [h]; exact hp)
      exact ⟨e, h1, h2, h3, Or.inr (Or.inr ⟨es, rfl, h4⟩)⟩

/-- Witness for claim C9 at a concrete recursive directory walk containing
a Python file, a text file and a subdirectory. -/
theorem collect_only_existing_python_files_witness :
    ∃ e : DirEntry,
      e.path = "d/a.py" ∧ e.isFile = true ∧ extOf "d/a.py" = some "py"
      ∧ (e ∈ [DirEntry.mk "d/a.py" true, DirEntry.mk "d/b.txt" true,
              DirEntry.mk "d/sub" false]
          ∨ (∃ es, (Except.ok [] : Except String (List DirEntry)) = Except.ok es
              ∧ e ∈ es)
          ∨ (∃ es, (Except.ok [] : Except String (List DirEntry)) = Except.ok es
              ∧ e ∈ es)) :=
  collect_only_existing_python_files
    ⟨true, [DirEntry.mk "d/a.py" true, DirEntry.mk "d/b.txt" true,
      DirEntry.mk "d/sub" false], Except.ok [], Except.ok []⟩
    true ["d/a.py"] rfl "d/a.py" (by decide)

/-! ## Artifact location (src/compiler/mod.rs, lines 247-346, and
src/uv_compiler.rs, lines 127-145).

copy_compiled_library first checks the conventionally named library file
under target/release; if it is absent, it scans the target/release
directory non-recursively (fs::read_dir) for the first regular file whose
extension matches the platform convention, and errors if none is found.
It never falls back to a recursive search.  The uv orchestrator instead
walks the whole scratch directory recursively (walkdir) from the start and
takes the first file with the platform extension.  Directory listings and
the walk order are supplied by the world; copying is reported by returning
the located source path. -/

inductive Platform where
  | windows
  | macos
  | linux
deriving DecidableEq, Repr

/-- The conventional library file name cargo produces for the build
directory name, per platform. -/
def lib_name_for (p : Platform) (dir_name : String) : String :=
  match p with
  | .windows => dir_name ++ ".dll"
  | .macos => "lib" ++ dir_name ++ ".dylib"
  | .linux => "lib" ++ dir_name ++ ".so"

/-- The cfg-chain of copy_compiled_library deciding whether an extension
(with a missing extension read as the empty string) matches the platform
dynamic-library convention. -/
def platform_ext_matches (p : Platform) (ext : String) : Bool :=
  (p == .windows && ext == "dll")
    || (p == .macos && ext == "dylib")
    || (p != .windows && p != .macos && ext == "so")

/-- Embeds compiler::copy_compiled_library.  expectedExists is whether the
conventionally named file exists; releaseDirExists and entries describe the
non-recursive listing of target/release.  Returns the path that gets
copied to the output, or the not-found error. -/
def copy_compiled_library (p : Platform) (build_dir dir_name : String)
    (expectedExists releaseDirExists : Bool) (entries : List DirEntry)
    (_output_path : String) : Except String String :=
  let compiled_lib_path := build_dir ++ "/target/release/" ++ lib_name_for p dir_name
  if expectedExists then Except.ok compiled_lib_path
  else
    let found :=
      if releaseDirExists then
        entries.find?
          (fun e => e.isFile && platform_ext_matches p ((extOf e.path).getD ""))
      else none
    match found with
    | some e => Except.ok e.path
    | none =>
      Except.error ("No compiled library found in " ++ build_dir ++ "/target/release")

/-- Embeds the artifact scan of uv_compiler::compile_file: the first file
in the recursive walk of the scratch directory whose extension equals the
platform one, or the not-found error. -/
def find_compiled_extension (ext : String) (walkEntries : List DirEntry) :
    Except String String :=
  match walkEntries.find? (fun e => e.isFile && (extOf e.path == some ext)) with
  | some e => Except.ok e.path
  | none => Except.error "Failed to find compiled extension module"

/-- Modelled from the claim, for refinement comparison only: locate the
artifact by scanning the conventional output subdirectory non-recursively
first, then recursively as a fallback, taking the first file whose
extension matches the platform convention, and fail with an
artifact-not-found error otherwise. -/
def claimed_locate_artifact (p : Platform)
    (nonRecursiveEntries recursiveEntries : List DirEntry) :
    Except String String :=
  match nonRecursiveEntries.find?
      (fun e => e.isFile && platform_ext_matches p ((extOf e.path).getD "")) with
  | some e => Except.ok e.path
  | none =>
    match recursiveEntries.find?
        (fun e => e.isFile && platform_ext_matches p ((extOf e.path).getD "")) with
    | some e => Except.ok e.path
    | none => Except.error "No compiled library found"

/-- Counterexample to claim C7 as stated: a build tree whose artifact sits
in a nested subdirectory of target/release.  The claimed strategy (with a
recursive fallback) locates it, but the code scans only the expected path
and the non-recursive listing and reports artifact-not-found. -/
theorem artifact_search_counterexample :
    copy_compiled_library Platform.linux "B" "B" false true
        [DirEntry.mk "B/target/release/build" false,
          DirEntry.mk "B/target/release/deps" false] "out.so"
      = Except.error "No compiled library found in B/target/release"
    ∧ claimed_locate_artifact Platform.linux
        [DirEntry.mk "B/target/release/build" false,
          DirEntry.mk "B/target/release/deps" false]
        [DirEntry.mk "B/target/release/build" false,
          DirEntry.mk "B/target/release/deps" false,
          DirEntry.mk "B/target/release/deps/libdemo.so" true]
      = Except.ok "B/target/release/deps/libdemo.so" := by
  constructor
  · rfl
  · rfl

/-- Claim C7 as amended: after a successful build, the cargo orchestrator
first takes the conventionally named file under target/release when it
exists; otherwise it scans the target/release listing non-recursively and
copies the first regular file whose extension matches the platform
convention; with no recursive fallback, it fails with the artifact
not-found error when the directory is missing or holds no matching file.
The uv orchestrator instead searches the scratch directory recursively
from the start and takes the first file with the platform extension, with
the same not-found error otherwise. -/
theorem artifact_search_behavior (p : Platform) (bd dn out : String)
    (relEx : Bool) (es : List DirEntry) :
    (copy_compiled_library p bd dn true relEx es out
        = Except.ok (bd ++ "/target/release/" ++ lib_name_for p dn))
    ∧ (∀ e, es.find?
          (fun x => x.isFile && platform_ext_matches p ((extOf x.path).getD ""))
          = some e →
        copy_compiled_library p bd dn false true es out = Except.ok e.path)
    ∧ (es.find?
          (fun x => x.isFile && platform_ext_matches p ((extOf x.path).getD ""))
          = none →
        copy_compiled_library p bd dn false true es out
          = Except.error ("No compiled library found in " ++ bd ++ "/target/release"))
    ∧ (copy_compiled_library p bd dn false false es out
        = Except.error ("No compiled library found in " ++ bd ++ "/target/release"))
    ∧ (∀ ext walk en,
        walk.find? (fun x => x.isFile && (extOf x.path == some ext)) = some en →
        find_compiled_extension ext walk = Except.ok en.path)
    ∧ (∀ ext walk,
        walk.find? (fun x => x.isFile && (extOf x.path == some ext)) = none →
        find_compiled_extension ext walk
          = Except.error "Failed to find compiled extension module") := by
  refine ⟨rfl, ?_, ?_, rfl, ?_, ?_⟩
  · intro e he
    simp [copy_compiled_library, he]
  · intro he
    simp [copy_compiled_library, he]
  · intro ext walk en hen
    simp [find_compiled_extension, hen]
  · intro ext walk hn
    simp [find_compiled_extension, hn]

/-- Witness for the amended claim C7: with the expected path absent, the
non-recursive scan of target/release takes its first matching file. -/
theorem artifact_search_behavior_witness :
    copy_compiled_library Platform.linux "C" "C" false true
        [DirEntry.mk "C/target/release/libfoo.so" true] "o"
      = Except.ok "C/target/release/libfoo.so" :=
  (artifact_search_behavior Platform.linux "C" "C" "o" true
    [DirEntry.mk "C/target/release/libfoo.so" true]).2.1
    (DirEntry.mk "C/target/release/libfoo.so" true) rfl

end Py2Pyd
